import Mathlib

/-!
# Verification model of the bramble book-club poll engine

Shallow embedding of the poll/nomination commands in
`src/commands/poll-commands.ts` (`createPollCommands`): `nominateBook`,
`clearNominations`, `startPoll`, the `pollVoteButton` handler, `closePoll`
and `startFinalPoll`, operating over the four SQLite tables
(`bookNominations`, `polls`, `pollVotes`, `pollWinners`).

Each table is modelled as a list of rows in insertion order (SQLite rowid
order, which is the order an unordered `SELECT` returns and the order the
drizzle queries in the source observe).  Presentation-only columns
(message ids, timestamps, embed text) are omitted; the columns the poll
logic reads and writes are kept.  Discord ephemeral error replies are
mapped to the spec's error taxonomy: "Poll not found" / "No active poll
found" ↦ `notFound`, "already an active poll" / "This poll has ended" ↦
`conflict`, "Not enough nominations" / "No completed Phase 1 poll" /
"Not enough books received votes" ↦ `precondition`, missing title/author ↦
`validationError`.
-/

namespace Bramble

/-- A row of the `bookNominations` table (columns the poll logic uses). -/
structure Nomination where
  guildId : String
  month : String
  bookTitle : String
  nominatedBy : String
deriving DecidableEq

/-- A row of the `polls` table.  `active`, `phase` and `multiVote` are the
integer flags of the schema, modelled as `Bool`/`Nat`. -/
structure Poll where
  id : Nat
  guildId : String
  month : String
  options : List String
  active : Bool
  phase : Nat
  multiVote : Bool
  parentPollId : Option Nat
deriving DecidableEq

/-- A row of the `pollVotes` table (the voter column is named `oderId` in
the schema). -/
structure Vote where
  pollId : Nat
  optionIndex : Nat
  voterId : String
deriving DecidableEq

/-- A row of the `pollWinners` table. -/
structure Winner where
  guildId : String
  month : String
  bookTitle : String
  voteCount : Nat
deriving DecidableEq

/-- The database state: the four tables, each as a list of rows in rowid
(insertion) order, plus the autoincrement counter for `polls.id`. -/
structure DB where
  nominations : List Nomination
  polls : List Poll
  votes : List Vote
  winners : List Winner
  nextPollId : Nat
deriving DecidableEq

/-- The spec's error taxonomy for the caller-facing failures the commands
produce. -/
inductive CmdError where
  | validationError
  | conflict
  | precondition
  | notFound
deriving DecidableEq

deriving instance DecidableEq for Except

/-- JavaScript `String.prototype.trim()`: strip whitespace from both ends
(modelled over the underlying character list so the kernel can evaluate
it). -/
def jsTrim (s : String) : String :=
  ⟨((s.data.dropWhile Char.isWhitespace).reverse.dropWhile Char.isWhitespace).reverse⟩

/-- `/nominatebook`: rejects a missing or empty title/author (the
`!title || !author` check), then stores the nomination formatted as
`"Title by Author"`; `saveNomination` trims the formatted string once
more before inserting. -/
def nominateBook (db : DB) (guildId month title author userId : String) :
    Except CmdError DB :=
  if title = "" ∨ author = "" then .error .validationError
  else
    let bookEntry := jsTrim title ++ " by " ++ jsTrim author
    .ok { db with
      nominations := db.nominations ++
        [{ guildId := guildId, month := month, bookTitle := jsTrim bookEntry,
           nominatedBy := userId }] }

/-- `/clearnominations`: deletes every nomination for the guild and month. -/
def clearNominations (db : DB) (guildId month : String) : DB :=
  { db with
    nominations := db.nominations.filter
      (fun n => !(decide (n.guildId = guildId ∧ n.month = month))) }

/-- The nominations for a guild and month, in insertion order (the
`startPoll` query has no ORDER BY; SQLite returns rowid order). -/
def nominationsFor (db : DB) (guildId month : String) : List Nomination :=
  db.nominations.filter (fun n => decide (n.guildId = guildId ∧ n.month = month))

/-- The active polls `startPoll` checks for: filtered by guild AND month. -/
def activePollsForMonth (db : DB) (guildId month : String) : List Poll :=
  db.polls.filter
    (fun p => decide (p.guildId = guildId ∧ p.month = month ∧ p.active = true))

/-- The active polls for a guild regardless of month (the query used by
`closePoll`, `startFinalPoll` and `pollStatus`). -/
def activePollsFor (db : DB) (guildId : String) : List Poll :=
  db.polls.filter (fun p => decide (p.guildId = guildId ∧ p.active = true))

/-- The poll row `startPoll` inserts: options are the nomination titles
for the guild and month in insertion order, `multiVote = 1`, `active = 1`,
`phase = 1`. -/
def startPollRow (db : DB) (guildId month : String) : Poll :=
  { id := db.nextPollId, guildId := guildId, month := month,
    options := (nominationsFor db guildId month).map (fun n => n.bookTitle),
    active := true, phase := 1, multiVote := true, parentPollId := none }

/-- `/startpoll`: conflict if an active poll exists for this guild and
month; precondition failure if fewer than 2 nominations; otherwise inserts
`startPollRow`. -/
def startPoll (db : DB) (guildId month : String) : Except CmdError DB :=
  if 0 < (activePollsForMonth db guildId month).length then .error .conflict
  else if (nominationsFor db guildId month).length < 2 then .error .precondition
  else
    .ok { db with
      polls := db.polls ++ [startPollRow db guildId month],
      nextPollId := db.nextPollId + 1 }

/-- The vote rows of one voter on one poll. -/
def voterRows (db : DB) (pollId : Nat) (voterId : String) : List Vote :=
  db.votes.filter (fun v => decide (v.pollId = pollId ∧ v.voterId = voterId))

/-- The `poll_vote` button handler.  Looks the poll up by id (NotFound if
absent), rejects a closed poll (Conflict), then toggles: in multi-vote
mode it deletes the exact (pollId, voter, optionIndex) row if present and
inserts it otherwise; in single-vote mode it deletes all of the voter's
rows on the poll and inserts the new row unless the toggled option was the
one already voted for.  The handler performs no bounds check on
`optionIndex`. -/
def vote (db : DB) (pollId : Nat) (voterId : String) (optionIndex : Nat) :
    Except CmdError DB :=
  match db.polls.find? (fun p => decide (p.id = pollId)) with
  | none => .error .notFound
  | some poll =>
    if poll.active = false then .error .conflict
    else
      let existingVotes := voterRows db pollId voterId
      let alreadyVotedForThis :=
        existingVotes.any (fun v => decide (v.optionIndex = optionIndex))
      if poll.multiVote then
        if alreadyVotedForThis then
          .ok { db with
            votes := db.votes.filter
              (fun v => !(decide (v.pollId = pollId ∧ v.voterId = voterId ∧
                v.optionIndex = optionIndex))) }
        else
          .ok { db with
            votes := db.votes ++
              [{ pollId := pollId, optionIndex := optionIndex, voterId := voterId }] }
      else
        let votes1 :=
          if 0 < existingVotes.length then
            db.votes.filter
              (fun v => !(decide (v.pollId = pollId ∧ v.voterId = voterId)))
          else db.votes
        let votes2 :=
          if !alreadyVotedForThis then
            votes1 ++ [{ pollId := pollId, optionIndex := optionIndex, voterId := voterId }]
          else votes1
        .ok { db with votes := votes2 }

/-- `count(*)` of vote rows for one option of a poll (the GROUP BY query;
an option with no rows gets 0 via the `|| 0` default). -/
def countVotes (db : DB) (pollId : Nat) (i : Nat) : Nat :=
  (db.votes.filter (fun v => decide (v.pollId = pollId ∧ v.optionIndex = i))).length

/-- `voteCountArray`: one count per option index. -/
def voteCountArray (db : DB) (pollId : Nat) (options : List String) : List Nat :=
  (List.range options.length).map (countVotes db pollId)

/-- One entry of the displayed ranking: its original option index, title
and vote count. -/
structure RankEntry where
  idx : Nat
  title : String
  votes : Nat
deriving DecidableEq

/-- Insert into a list sorted descending by votes, before the first entry
whose count does not exceed this one (ECMAScript `Array.prototype.sort` is
stable, so an entry precedes later-listed entries with the same count). -/
def insertRanked (x : RankEntry) : List RankEntry → List RankEntry
  | [] => [x]
  | y :: ys => if y.votes ≤ x.votes then x :: y :: ys else y :: insertRanked x ys

/-- The stable descending sort `.sort((a, b) => b.votes - a.votes)`. -/
def sortRanked : List RankEntry → List RankEntry
  | [] => []
  | x :: xs => insertRanked x (sortRanked xs)

/-- One entry before sorting: option `i` paired with its title and count
(`voteCountArray[i] || 0`). -/
def rankEntry (options : List String) (counts : List Nat) (i : Nat) : RankEntry :=
  { idx := i, title := options.getD i "", votes := counts.getD i 0 }

/-- The ranking both `closePoll` and `startFinalPoll` build: pair each
option with its count in index order, then stable-sort descending by
votes. -/
def rankEntries (options : List String) (counts : List Nat) : List RankEntry :=
  sortRanked ((List.range options.length).map (rankEntry options counts))

/-- `Math.max(...voteCountArray)` over the natural-number counts (the
empty case, `-Infinity` in JS, is never reached by the commands and is
totalised to 0). -/
def jsMaxNat (l : List Nat) : Nat := l.foldl Nat.max 0

/-- `Array.prototype.indexOf`: index of the first occurrence.  (JS yields
-1 when absent; the commands only call this with a present element, and
absence is totalised to the length.) -/
def jsIndexOf (x : Nat) : List Nat → Nat
  | [] => 0
  | y :: ys => if y = x then 0 else jsIndexOf x ys + 1

/-- Result of `closePoll`: the new database state and the displayed
ranking. -/
structure CloseResult where
  db : DB
  ranking : List RankEntry
deriving DecidableEq

/-- The `UPDATE polls SET active = 0 WHERE id = pollId` row function. -/
def deactivateRow (pollId : Nat) (p : Poll) : Poll :=
  if p.id = pollId then { p with active := false } else p

/-- The vote counts `closePoll` computes for the poll it is closing. -/
def closeCounts (db : DB) (poll : Poll) : List Nat :=
  voteCountArray db poll.id poll.options

/-- The winner row a phase-2 close inserts: `maxVotes = Math.max(...)`,
`winnerIndex = indexOf(maxVotes)` (first, i.e. lowest, index attaining the
maximum), title `options[winnerIndex]` (out-of-bounds access, impossible
for polls the commands create, is totalised to `""`). -/
def closeWinnerRow (db : DB) (guildId : String) (poll : Poll) : Winner :=
  { guildId := guildId, month := poll.month,
    bookTitle := poll.options.getD
      (jsIndexOf (jsMaxNat (closeCounts db poll)) (closeCounts db poll)) "",
    voteCount := jsMaxNat (closeCounts db poll) }

/-- The state and ranking a successful `closePoll` produces for the poll
it closes: the poll's row deactivated, a winner appended iff phase 2. -/
def closeOkResult (db : DB) (guildId : String) (poll : Poll) : CloseResult :=
  { db := { db with
      polls := db.polls.map (deactivateRow poll.id),
      winners :=
        if poll.phase = 2 then db.winners ++ [closeWinnerRow db guildId poll]
        else db.winners },
    ranking := rankEntries poll.options (closeCounts db poll) }

/-- `/closepoll`: NotFound if the guild has no active poll; otherwise
takes the first active poll, counts its votes, flips its `active` flag to
0, and — only when `phase = 2` — records `closeWinnerRow`.  Returns the
displayed ranking. -/
def closePoll (db : DB) (guildId : String) : Except CmdError CloseResult :=
  match activePollsFor db guildId with
  | [] => .error .notFound
  | poll :: _ => .ok (closeOkResult db guildId poll)

/-- `ORDER BY id DESC LIMIT 1` over a list of rows: the row with the
largest id (ids are unique; the earlier row is kept on a tie). -/
def maxByIdPoll : List Poll → Option Poll
  | [] => none
  | p :: ps =>
    match maxByIdPoll ps with
    | none => some p
    | some q => if p.id < q.id then some q else some p

/-- The closed phase-1 polls of a guild (the `startFinalPoll` query
before its ORDER BY). -/
def closedPhase1 (db : DB) (guildId : String) : List Poll :=
  db.polls.filter (fun p => decide (p.guildId = guildId ∧ p.phase = 1 ∧ p.active = false))

/-- The top-3 ranked entries of a phase-1 poll (`sortedOptions` in the
source: rank, then `.slice(0, 3)`). -/
def top3 (db : DB) (phase1Poll : Poll) : List RankEntry :=
  (rankEntries phase1Poll.options (voteCountArray db phase1Poll.id phase1Poll.options)).take 3

/-- The poll row `startFinalPoll` inserts: the top-3 titles in ranked
order, `multiVote = 0`, `active = 1`, `phase = 2`, `parentPollId` the
phase-1 poll's id, month copied from the phase-1 poll. -/
def finalPollRow (db : DB) (guildId : String) (phase1Poll : Poll) : Poll :=
  { id := db.nextPollId, guildId := guildId, month := phase1Poll.month,
    options := (top3 db phase1Poll).map (fun o => o.title), active := true,
    phase := 2, multiVote := false, parentPollId := some phase1Poll.id }

/-- `/startfinalpoll`: finds the most recent closed phase-1 poll
(precondition failure if none); conflict if any poll is active for the
guild; precondition failure if the phase-1 poll had fewer than 3 options,
or if fewer than 3 of its top-3 entries received a vote; otherwise inserts
`finalPollRow`. -/
def startFinalPoll (db : DB) (guildId : String) : Except CmdError DB :=
  match maxByIdPoll (closedPhase1 db guildId) with
  | none => .error .precondition
  | some phase1Poll =>
    if 0 < (activePollsFor db guildId).length then .error .conflict
    else if phase1Poll.options.length < 3 then .error .precondition
    else if ((top3 db phase1Poll).filter (fun o => decide (0 < o.votes))).length < 3 then
      .error .precondition
    else
      .ok { db with
        polls := db.polls ++ [finalPollRow db guildId phase1Poll],
        nextPollId := db.nextPollId + 1 }

/-- One inbound command, for stating reachability properties over the
whole command surface that mutates the database. -/
inductive Op where
  | nominate (guildId month title author userId : String)
  | clear (guildId month : String)
  | start (guildId month : String)
  | voteOp (pollId : Nat) (voterId : String) (optionIndex : Nat)
  | close (guildId : String)
  | startFinal (guildId : String)
deriving DecidableEq

/-- Apply one command to the database; a failed command leaves the
database unchanged (each handler returns its error reply before any
write). -/
def applyOp (db : DB) : Op → DB
  | .nominate g m t a u =>
    match nominateBook db g m t a u with
    | .ok db1 => db1
    | .error _ => db
  | .clear g m => clearNominations db g m
  | .start g m =>
    match startPoll db g m with
    | .ok db1 => db1
    | .error _ => db
  | .voteOp p v i =>
    match vote db p v i with
    | .ok db1 => db1
    | .error _ => db
  | .close g =>
    match closePoll db g with
    | .ok r => r.db
    | .error _ => db
  | .startFinal g =>
    match startFinalPoll db g with
    | .ok db1 => db1
    | .error _ => db

/-- Run a sequence of commands from a state. -/
def runOps (db : DB) (ops : List Op) : DB := ops.foldl applyOp db

/-- The empty database. -/
def emptyDB : DB :=
  { nominations := [], polls := [], votes := [], winners := [], nextPollId := 1 }

/-- Whether a (pollId, voterId, optionIndex) row exists. -/
def hasVote (db : DB) (pollId : Nat) (voterId : String) (i : Nat) : Bool :=
  db.votes.any
    (fun v => decide (v.pollId = pollId ∧ v.voterId = voterId ∧ v.optionIndex = i))

/-- The row the handler inserts. -/
def mkVote (pollId : Nat) (voterId : String) (i : Nat) : Vote :=
  { pollId := pollId, optionIndex := i, voterId := voterId }

/-- Apply one `vote` call, keeping the state on an error reply. -/
def voteStep (pollId : Nat) (voterId : String) (db : DB) (i : Nat) : DB :=
  match vote db pollId voterId i with
  | .ok db1 => db1
  | .error _ => db

/-- A sequence of `vote` calls by one voter on one poll. -/
def voteSeq (db : DB) (pollId : Nat) (voterId : String) (opts : List Nat) : DB :=
  opts.foldl (voteStep pollId voterId) db

/-- `n` repetitions of the same `vote` call. -/
def voteIter (db : DB) (pollId : Nat) (voterId : String) (i : Nat) : Nat → DB
  | 0 => db
  | n + 1 => voteStep pollId voterId (voteIter db pollId voterId i n) i

theorem any_option_voterRows (db : DB) (pollId : Nat) (voterId : String) (i : Nat) :
    ((voterRows db pollId voterId).any (fun v => decide (v.optionIndex = i)))
      = hasVote db pollId voterId i := by
  apply Bool.eq_iff_iff.mpr
  rw [voterRows, hasVote]
  simp only [List.any_eq_true, List.mem_filter, decide_eq_true_iff]
  constructor
  · rintro ⟨v, ⟨hv, h1, h2⟩, h3⟩
    exact ⟨v, hv, h1, h2, h3⟩
  · rintro ⟨v, hv, h1, h2, h3⟩
    exact ⟨v, ⟨hv, h1, h2⟩, h3⟩

theorem hasVote_false_of_voterRows_nil (db : DB) (pollId : Nat) (voterId : String)
    (i : Nat) (h : voterRows db pollId voterId = []) :
    hasVote db pollId voterId i = false := by
  rw [hasVote, List.any_eq_false]
  intro v hv hdec
  have h3 := of_decide_eq_true hdec
  have : v ∈ voterRows db pollId voterId := by
    rw [voterRows, List.mem_filter]
    exact ⟨hv, decide_eq_true ⟨h3.1, h3.2.1⟩⟩
  rw [h] at this
  exact absurd this (List.not_mem_nil v)

/-- Characterisation of the multi-vote branch of the button handler. -/
theorem vote_multi_eq (db : DB) (pollId : Nat) (voterId : String) (i : Nat)
    (poll : Poll)
    (hfind : db.polls.find? (fun p => decide (p.id = pollId)) = some poll)
    (hact : poll.active = true) (hmv : poll.multiVote = true) :
    vote db pollId voterId i = .ok { db with votes :=
      (if (hasVote db pollId voterId i) then
        db.votes.filter
          (fun v => !(decide (v.pollId = pollId ∧ v.voterId = voterId ∧ v.optionIndex = i)))
      else db.votes ++ [mkVote pollId voterId i]) } := by
  rw [vote, hfind]
  simp only [hact, hmv, if_true, Bool.true_eq_false, if_false,
    any_option_voterRows, mkVote]
  by_cases h : hasVote db pollId voterId i = true
  · simp [h]
  · simp [Bool.not_eq_true] at h
    simp [h]

/-- Characterisation of the single-vote branch of the button handler. -/
theorem vote_single_eq (db : DB) (pollId : Nat) (voterId : String) (i : Nat)
    (poll : Poll)
    (hfind : db.polls.find? (fun p => decide (p.id = pollId)) = some poll)
    (hact : poll.active = true) (hmv : poll.multiVote = false) :
    vote db pollId voterId i = .ok { db with votes :=
      ((if 0 < (voterRows db pollId voterId).length then
        db.votes.filter (fun v => !(decide (v.pollId = pollId ∧ v.voterId = voterId)))
      else db.votes) ++
      (if (hasVote db pollId voterId i) then [] else [mkVote pollId voterId i])) } := by
  rw [vote, hfind]
  simp only [hact, hmv, Bool.true_eq_false, if_false, Bool.false_eq_true,
    any_option_voterRows, mkVote]
  by_cases h : hasVote db pollId voterId i = true
  · simp [h]
  · simp [Bool.not_eq_true] at h
    simp [h]

theorem voterRows_ne_nil_of_hasVote (db : DB) (pollId : Nat) (voterId : String)
    (i : Nat) (h : hasVote db pollId voterId i = true) :
    voterRows db pollId voterId ≠ [] := by
  intro hnil
  rw [hasVote_false_of_voterRows_nil db pollId voterId i hnil] at h
  exact Bool.false_ne_true h

theorem filter_not_filter_eq_nil (l : List Vote) (p : Vote → Bool) :
    (l.filter (fun v => !(p v))).filter p = [] := by
  rw [List.filter_filter]
  refine List.filter_eq_nil_iff.mpr ?_
  intro a _
  simp

theorem vote_multi_eq_pos (db : DB) (pollId : Nat) (voterId : String) (i : Nat)
    (poll : Poll)
    (hfind : db.polls.find? (fun p => decide (p.id = pollId)) = some poll)
    (hact : poll.active = true) (hmv : poll.multiVote = true)
    (h : hasVote db pollId voterId i = true) :
    vote db pollId voterId i = .ok { db with votes :=
      (db.votes.filter
        (fun v => !(decide (v.pollId = pollId ∧ v.voterId = voterId ∧ v.optionIndex = i)))) } := by
  rw [vote_multi_eq db pollId voterId i poll hfind hact hmv]
  simp only [h, reduceIte]

theorem vote_multi_eq_neg (db : DB) (pollId : Nat) (voterId : String) (i : Nat)
    (poll : Poll)
    (hfind : db.polls.find? (fun p => decide (p.id = pollId)) = some poll)
    (hact : poll.active = true) (hmv : poll.multiVote = true)
    (h : hasVote db pollId voterId i = false) :
    vote db pollId voterId i = .ok { db with votes :=
      db.votes ++ [mkVote pollId voterId i] } := by
  rw [vote_multi_eq db pollId voterId i poll hfind hact hmv]
  simp only [h, Bool.false_eq_true, reduceIte]

theorem vote_single_eq_pos (db : DB) (pollId : Nat) (voterId : String) (i : Nat)
    (poll : Poll)
    (hfind : db.polls.find? (fun p => decide (p.id = pollId)) = some poll)
    (hact : poll.active = true) (hmv : poll.multiVote = false)
    (h : hasVote db pollId voterId i = true) :
    vote db pollId voterId i = .ok { db with votes :=
      (db.votes.filter (fun v => !(decide (v.pollId = pollId ∧ v.voterId = voterId)))) } := by
  rw [vote_single_eq db pollId voterId i poll hfind hact hmv]
  have hpos : 0 < (voterRows db pollId voterId).length :=
    List.length_pos.mpr (voterRows_ne_nil_of_hasVote db pollId voterId i h)
  simp only [h, hpos, reduceIte, List.append_nil]

theorem vote_single_eq_neg_nil (db : DB) (pollId : Nat) (voterId : String) (i : Nat)
    (poll : Poll)
    (hfind : db.polls.find? (fun p => decide (p.id = pollId)) = some poll)
    (hact : poll.active = true) (hmv : poll.multiVote = false)
    (hnil : voterRows db pollId voterId = []) :
    vote db pollId voterId i = .ok { db with votes :=
      db.votes ++ [mkVote pollId voterId i] } := by
  rw [vote_single_eq db pollId voterId i poll hfind hact hmv]
  have h := hasVote_false_of_voterRows_nil db pollId voterId i hnil
  have hpos : ¬(0 < (voterRows db pollId voterId).length) := by
    rw [hnil]
    simp
  simp only [h, hpos, Bool.false_eq_true, reduceIte]

theorem vote_single_eq_neg_cons (db : DB) (pollId : Nat) (voterId : String) (i : Nat)
    (poll : Poll)
    (hfind : db.polls.find? (fun p => decide (p.id = pollId)) = some poll)
    (hact : poll.active = true) (hmv : poll.multiVote = false)
    (h : hasVote db pollId voterId i = false)
    (hne : voterRows db pollId voterId ≠ []) :
    vote db pollId voterId i = .ok { db with votes :=
      (db.votes.filter (fun v => !(decide (v.pollId = pollId ∧ v.voterId = voterId)))
        ++ [mkVote pollId voterId i]) } := by
  rw [vote_single_eq db pollId voterId i poll hfind hact hmv]
  have hpos : 0 < (voterRows db pollId voterId).length := List.length_pos.mpr hne
  simp only [h, hpos, Bool.false_eq_true, reduceIte]

theorem polls_voteStep_multi (db : DB) (pollId : Nat) (voterId : String) (i : Nat)
    (poll : Poll)
    (hfind : db.polls.find? (fun p => decide (p.id = pollId)) = some poll)
    (hact : poll.active = true) (hmv : poll.multiVote = true) :
    (voteStep pollId voterId db i).polls = db.polls := by
  by_cases h : hasVote db pollId voterId i = true
  · rw [voteStep, vote_multi_eq_pos db pollId voterId i poll hfind hact hmv h]
  · rw [Bool.not_eq_true] at h
    rw [voteStep, vote_multi_eq_neg db pollId voterId i poll hfind hact hmv h]

theorem hasVote_voteStep_multi (db : DB) (pollId : Nat) (voterId : String) (i : Nat)
    (poll : Poll)
    (hfind : db.polls.find? (fun p => decide (p.id = pollId)) = some poll)
    (hact : poll.active = true) (hmv : poll.multiVote = true) :
    hasVote (voteStep pollId voterId db i) pollId voterId i
      = !(hasVote db pollId voterId i) := by
  by_cases h : hasVote db pollId voterId i = true
  · rw [voteStep, vote_multi_eq_pos db pollId voterId i poll hfind hact hmv h, h,
      Bool.not_true, hasVote]
    dsimp only
    rw [List.any_filter]
    refine List.any_eq_false.mpr ?_
    intro v _
    simp
    tauto
  · rw [Bool.not_eq_true] at h
    rw [voteStep, vote_multi_eq_neg db pollId voterId i poll hfind hact hmv h, h,
      Bool.not_false, hasVote]
    dsimp only
    rw [List.any_append]
    simp [mkVote]

theorem decide_succ_mod_two (n : Nat) :
    decide ((n + 1) % 2 = 1) = !(decide (n % 2 = 1)) := by
  rcases Nat.mod_two_eq_zero_or_one n with h | h
  · have h1 : (n + 1) % 2 = 1 := by omega
    rw [h1, h]
    rfl
  · have h1 : (n + 1) % 2 = 0 := by omega
    rw [h1, h]
    rfl

theorem voteIter_multi_parity (db : DB) (pollId : Nat) (voterId : String) (i : Nat)
    (poll : Poll)
    (hfind : db.polls.find? (fun p => decide (p.id = pollId)) = some poll)
    (hact : poll.active = true) (hmv : poll.multiVote = true) (n : Nat) :
    (voteIter db pollId voterId i n).polls = db.polls ∧
      hasVote (voteIter db pollId voterId i n) pollId voterId i
        = ((hasVote db pollId voterId i).xor (decide (n % 2 = 1))) := by
  induction n with
  | zero =>
    refine ⟨rfl, ?_⟩
    simp [voteIter]
  | succ n ih =>
    obtain ⟨hpolls, hparity⟩ := ih
    have hfindn : (voteIter db pollId voterId i n).polls.find?
        (fun p => decide (p.id = pollId)) = some poll := by rw [hpolls]; exact hfind
    constructor
    · rw [voteIter, polls_voteStep_multi _ _ _ _ poll hfindn hact hmv, hpolls]
    · rw [voteIter, hasVote_voteStep_multi _ _ _ _ poll hfindn hact hmv, hparity,
        decide_succ_mod_two]
      cases hasVote db pollId voterId i <;> cases decide (n % 2 = 1) <;> rfl

theorem count_frame_multi (db : DB) (pollId : Nat) (voterId : String) (i : Nat)
    (poll : Poll)
    (hfind : db.polls.find? (fun p => decide (p.id = pollId)) = some poll)
    (hact : poll.active = true) (hmv : poll.multiVote = true)
    (w : Vote) (hw : w ≠ mkVote pollId voterId i) :
    (voteStep pollId voterId db i).votes.count w = db.votes.count w := by
  have hwpred : (decide (w.pollId = pollId ∧ w.voterId = voterId ∧ w.optionIndex = i))
      = false := by
    apply decide_eq_false
    rintro ⟨h1, h2, h3⟩
    apply hw
    cases w
    simp [mkVote] at h1 h2 h3 ⊢
    exact ⟨h1, h3, h2⟩
  by_cases h : hasVote db pollId voterId i = true
  · rw [voteStep, vote_multi_eq_pos db pollId voterId i poll hfind hact hmv h]
    dsimp only
    apply List.count_filter
    rw [hwpred]
    rfl
  · rw [Bool.not_eq_true] at h
    rw [voteStep, vote_multi_eq_neg db pollId voterId i poll hfind hact hmv h]
    dsimp only
    rw [List.count_append]
    have h0 : List.count w [mkVote pollId voterId i] = 0 :=
      List.count_eq_zero.mpr (by simp; intro hcontra; exact hw hcontra)
    omega

theorem voterRows_voteStep_single (db : DB) (pollId : Nat) (voterId : String) (i : Nat)
    (poll : Poll)
    (hfind : db.polls.find? (fun p => decide (p.id = pollId)) = some poll)
    (hact : poll.active = true) (hmv : poll.multiVote = false) :
    (voteStep pollId voterId db i).polls = db.polls ∧
      voterRows (voteStep pollId voterId db i) pollId voterId
        = (if (hasVote db pollId voterId i) then [] else [mkVote pollId voterId i]) := by
  have hnewmem : (decide ((mkVote pollId voterId i).pollId = pollId ∧
      (mkVote pollId voterId i).voterId = voterId)) = true := decide_eq_true ⟨rfl, rfl⟩
  by_cases h : hasVote db pollId voterId i = true
  · rw [voteStep, vote_single_eq_pos db pollId voterId i poll hfind hact hmv h, h]
    refine ⟨rfl, ?_⟩
    simp only [reduceIte]
    rw [voterRows]
    dsimp only
    exact filter_not_filter_eq_nil db.votes _
  · rw [Bool.not_eq_true] at h
    by_cases hnil : voterRows db pollId voterId = []
    · rw [voteStep, vote_single_eq_neg_nil db pollId voterId i poll hfind hact hmv hnil, h]
      refine ⟨rfl, ?_⟩
      simp only [Bool.false_eq_true, reduceIte]
      rw [voterRows]
      dsimp only
      rw [List.filter_append]
      rw [voterRows] at hnil
      rw [hnil]
      simp [mkVote]
    · rw [voteStep, vote_single_eq_neg_cons db pollId voterId i poll hfind hact hmv h hnil, h]
      refine ⟨rfl, ?_⟩
      simp only [Bool.false_eq_true, reduceIte]
      rw [voterRows]
      dsimp only
      rw [List.filter_append, filter_not_filter_eq_nil db.votes _]
      simp [mkVote]

theorem vote_ok_voteStep_single (db : DB) (pollId : Nat) (voterId : String) (i : Nat)
    (poll : Poll)
    (hfind : db.polls.find? (fun p => decide (p.id = pollId)) = some poll)
    (hact : poll.active = true) (hmv : poll.multiVote = false) :
    vote db pollId voterId i = .ok (voteStep pollId voterId db i) := by
  by_cases h : hasVote db pollId voterId i = true
  · rw [voteStep, vote_single_eq_pos db pollId voterId i poll hfind hact hmv h]
  · rw [Bool.not_eq_true] at h
    by_cases hnil : voterRows db pollId voterId = []
    · rw [voteStep, vote_single_eq_neg_nil db pollId voterId i poll hfind hact hmv hnil]
    · rw [voteStep, vote_single_eq_neg_cons db pollId voterId i poll hfind hact hmv h hnil]

theorem voteSeq_single_le_one (pollId : Nat) (voterId : String) (poll : Poll)
    (hact : poll.active = true) (hmv : poll.multiVote = false) :
    ∀ (opts : List Nat) (db : DB),
      db.polls.find? (fun p => decide (p.id = pollId)) = some poll →
      (voterRows db pollId voterId).length ≤ 1 →
      (voterRows (voteSeq db pollId voterId opts) pollId voterId).length ≤ 1 := by
  intro opts
  induction opts with
  | nil =>
    intro db hfind hlen
    exact hlen
  | cons o rest ih =>
    intro db hfind hlen
    rw [voteSeq, List.foldl_cons]
    have hstep := voterRows_voteStep_single db pollId voterId o poll hfind hact hmv
    have hfind1 : (voteStep pollId voterId db o).polls.find?
        (fun p => decide (p.id = pollId)) = some poll := by
      rw [hstep.1]
      exact hfind
    have hlen1 : (voterRows (voteStep pollId voterId db o) pollId voterId).length ≤ 1 := by
      rw [hstep.2]
      by_cases h : hasVote db pollId voterId o = true <;> simp [h]
    exact ih (voteStep pollId voterId db o) hfind1 hlen1

/-- A two-option active multi-vote phase-1 poll, as `startPoll` creates. -/
def pollM : Poll :=
  { id := 1, guildId := "c", month := "2026-01",
    options := ["Dune by Herbert", "1984 by Orwell"], active := true, phase := 1,
    multiVote := true, parentPollId := none }

/-- A database containing only `pollM`. -/
def multiDB : DB := { emptyDB with polls := [pollM], nextPollId := 2 }

/-- A three-option active single-vote phase-2 poll, as `startFinalPoll`
creates. -/
def pollS : Poll :=
  { id := 1, guildId := "c", month := "2026-01", options := ["A", "B", "C"],
    active := true, phase := 2, multiVote := false, parentPollId := none }

/-- A database containing only `pollS`. -/
def singleDB : DB := { emptyDB with polls := [pollS], nextPollId := 2 }

/-- C2: on an active single-vote poll, a `vote` call nets out to: if the
voter's existing vote targets the toggled option the vote is deleted,
otherwise all of the voter's rows on the poll are replaced by the single
new row; consequently after any sequence of `vote` calls by one voter at
most one vote row exists for that voter on that poll. -/
theorem claim_C2_single_vote_replace (db : DB) (pollId : Nat) (voterId : String)
    (i : Nat) (poll : Poll)
    (hfind : db.polls.find? (fun p => decide (p.id = pollId)) = some poll)
    (hact : poll.active = true) (hmv : poll.multiVote = false) :
    (∃ db1, vote db pollId voterId i = .ok db1 ∧
      voterRows db1 pollId voterId
        = (if (hasVote db pollId voterId i) then [] else [mkVote pollId voterId i]) ∧
      (voterRows db1 pollId voterId).length ≤ 1) ∧
    (∀ opts : List Nat, (voterRows db pollId voterId).length ≤ 1 →
      (voterRows (voteSeq db pollId voterId opts) pollId voterId).length ≤ 1) := by
  constructor
  · refine ⟨voteStep pollId voterId db i,
      vote_ok_voteStep_single db pollId voterId i poll hfind hact hmv,
      (voterRows_voteStep_single db pollId voterId i poll hfind hact hmv).2, ?_⟩
    rw [(voterRows_voteStep_single db pollId voterId i poll hfind hact hmv).2]
    by_cases h : hasVote db pollId voterId i = true <;> simp [h]
  · intro opts hlen
    exact voteSeq_single_le_one pollId voterId poll hact hmv opts db hfind hlen

/-- C2 witness: a concrete run of four single-vote calls on `singleDB`
leaves at most one row for the voter. -/
theorem claim_C2_witness :
    (voterRows (voteSeq singleDB 1 "u1" [0, 1, 1, 2]) 1 "u1").length ≤ 1 :=
  (claim_C2_single_vote_replace singleDB 1 "u1" 0 pollS (by decide) (by decide)
    (by decide)).2 [0, 1, 1, 2] (by decide)

/-- C3: on an active multi-vote poll with an in-range option index, a
`vote` call deletes the exact (pollId, voter, option) row if present and
inserts it otherwise; every other row's multiplicity is unchanged; and
after `n` repetitions of the same call the presence of the vote equals
its original presence xor the parity of `n` (so two consecutive calls
restore it: odd totals leave a vote present that started absent, even
totals leave it absent). -/
theorem claim_C3_multi_vote_toggle (db : DB) (pollId : Nat) (voterId : String)
    (i : Nat) (poll : Poll)
    (hfind : db.polls.find? (fun p => decide (p.id = pollId)) = some poll)
    (hact : poll.active = true) (hmv : poll.multiVote = true)
    (_hrange : i < poll.options.length) :
    (vote db pollId voterId i = .ok { db with votes :=
      (if (hasVote db pollId voterId i) then
        db.votes.filter
          (fun v => !(decide (v.pollId = pollId ∧ v.voterId = voterId ∧ v.optionIndex = i)))
      else db.votes ++ [mkVote pollId voterId i]) }) ∧
    (∀ w : Vote, w ≠ mkVote pollId voterId i →
      (voteStep pollId voterId db i).votes.count w = db.votes.count w) ∧
    (∀ n : Nat, hasVote (voteIter db pollId voterId i n) pollId voterId i
      = ((hasVote db pollId voterId i).xor (decide (n % 2 = 1)))) := by
  refine ⟨vote_multi_eq db pollId voterId i poll hfind hact hmv, ?_, ?_⟩
  · intro w hw
    exact count_frame_multi db pollId voterId i poll hfind hact hmv w hw
  · intro n
    exact (voteIter_multi_parity db pollId voterId i poll hfind hact hmv n).2

/-- C3 witness: four repetitions of the same vote call on `multiDB`
restore the absent vote. -/
theorem claim_C3_witness :
    hasVote (voteIter multiDB 1 "u1" 0 4) 1 "u1" 0
      = ((hasVote multiDB 1 "u1" 0).xor (decide (4 % 2 = 1))) :=
  (claim_C3_multi_vote_toggle multiDB 1 "u1" 0 pollM (by decide) (by decide)
    (by decide) (by decide)).2.2 4

/-- `a` is ranked strictly before `b`: more votes, or equal votes and a
smaller original option index. -/
def rankBefore (a b : RankEntry) : Prop :=
  b.votes < a.votes ∨ (a.votes = b.votes ∧ a.idx < b.idx)

theorem insertRanked_perm (x : RankEntry) (l : List RankEntry) :
    (insertRanked x l).Perm (x :: l) := by
  induction l with
  | nil => exact List.Perm.refl _
  | cons y ys ih =>
    rw [insertRanked]
    by_cases hc : y.votes ≤ x.votes
    · rw [if_pos hc]
    · rw [if_neg hc]
      exact (List.Perm.cons y ih).trans (List.Perm.swap x y ys)

theorem sortRanked_perm (l : List RankEntry) : (sortRanked l).Perm l := by
  induction l with
  | nil => exact List.Perm.refl _
  | cons x xs ih =>
    rw [sortRanked]
    exact ((insertRanked_perm x (sortRanked xs)).trans (List.Perm.cons x ih))

theorem insertRanked_pairwise (x : RankEntry) (l : List RankEntry)
    (hl : l.Pairwise rankBefore) (hidx : ∀ y ∈ l, x.idx < y.idx) :
    (insertRanked x l).Pairwise rankBefore := by
  induction l with
  | nil =>
    rw [insertRanked]
    exact List.pairwise_singleton rankBefore x
  | cons y ys ih =>
    rw [insertRanked]
    obtain ⟨hy, hys⟩ := List.pairwise_cons.mp hl
    by_cases hc : y.votes ≤ x.votes
    · rw [if_pos hc]
      refine List.pairwise_cons.mpr ⟨?_, hl⟩
      intro z hz
      rcases List.mem_cons.mp hz with rfl | hzys
      · rcases Nat.lt_or_eq_of_le hc with hlt | heq
        · exact Or.inl hlt
        · exact Or.inr ⟨heq.symm, hidx z (List.mem_cons_self z ys)⟩
      · have hzy : z.votes ≤ y.votes := by
          rcases hy z hzys with hlt | ⟨heq, _⟩
          · exact Nat.le_of_lt hlt
          · exact Nat.le_of_eq heq.symm
        have hzx : z.votes ≤ x.votes := Nat.le_trans hzy hc
        rcases Nat.lt_or_eq_of_le hzx with hlt | heq
        · exact Or.inl hlt
        · exact Or.inr ⟨heq.symm, hidx z hz⟩
    · rw [if_neg hc]
      have hxy : x.votes < y.votes := Nat.lt_of_not_le hc
      refine List.pairwise_cons.mpr ⟨?_, ih hys (fun z hz => hidx z (List.mem_cons_of_mem y hz))⟩
      intro z hz
      rcases List.mem_cons.mp ((insertRanked_perm x ys).mem_iff.mp hz) with rfl | hzys
      · exact Or.inl hxy
      · exact hy z hzys

theorem sortRanked_pairwise (l : List RankEntry)
    (h : l.Pairwise (fun a b => a.idx < b.idx)) :
    (sortRanked l).Pairwise rankBefore := by
  induction l with
  | nil => exact List.Pairwise.nil
  | cons x xs ih =>
    rw [sortRanked]
    obtain ⟨hx, hxs⟩ := List.pairwise_cons.mp h
    refine insertRanked_pairwise x (sortRanked xs) (ih hxs) ?_
    intro y hy
    exact hx y ((sortRanked_perm xs).mem_iff.mp hy)

theorem rankEntries_input_pairwise (options : List String) (counts : List Nat) :
    ((List.range options.length).map (rankEntry options counts)).Pairwise
      (fun a b => a.idx < b.idx) := by
  rw [List.pairwise_map]
  exact List.pairwise_lt_range _

theorem le_foldl_max_init (l : List Nat) : ∀ a : Nat, a ≤ l.foldl Nat.max a := by
  induction l with
  | nil =>
    intro a
    exact Nat.le_refl a
  | cons b bs ih =>
    intro a
    rw [List.foldl_cons]
    exact Nat.le_trans (Nat.le_max_left a b) (ih (Nat.max a b))

theorem foldl_max_eq_init_or_mem (l : List Nat) :
    ∀ a : Nat, l.foldl Nat.max a = a ∨ l.foldl Nat.max a ∈ l := by
  induction l with
  | nil =>
    intro a
    exact Or.inl rfl
  | cons b bs ih =>
    intro a
    rw [List.foldl_cons]
    rcases ih (Nat.max a b) with h | h
    · rw [h]
      rcases Nat.le_total a b with hab | hba
      · have hm : Nat.max a b = b := Nat.max_eq_right hab
        rw [hm]
        exact Or.inr (List.mem_cons_self b bs)
      · have hm : Nat.max a b = a := Nat.max_eq_left hba
        rw [hm]
        exact Or.inl rfl
    · exact Or.inr (List.mem_cons_of_mem b h)

theorem le_foldl_max_of_mem (l : List Nat) :
    ∀ (a x : Nat), x ∈ l → x ≤ l.foldl Nat.max a := by
  induction l with
  | nil =>
    intro a x hx
    cases hx
  | cons b bs ih =>
    intro a x hx
    rw [List.foldl_cons]
    rcases List.mem_cons.mp hx with rfl | hxs
    · calc x ≤ Nat.max a x := Nat.le_max_right a x
        _ ≤ List.foldl Nat.max (Nat.max a x) bs := le_foldl_max_init bs (Nat.max a x)
    · exact ih (Nat.max a b) x hxs

theorem jsMaxNat_mem (l : List Nat) (hne : l ≠ []) : jsMaxNat l ∈ l := by
  rw [jsMaxNat]
  rcases foldl_max_eq_init_or_mem l 0 with h | h
  · cases l with
    | nil => exact absurd rfl hne
    | cons b bs =>
      have hb : b ≤ List.foldl Nat.max 0 (b :: bs) :=
        le_foldl_max_of_mem (b :: bs) 0 b (List.mem_cons_self b bs)
      rw [h] at hb
      have hb0 : b = 0 := Nat.le_zero.mp hb
      rw [h, ← hb0]
      exact List.mem_cons_self b bs
  · exact h

theorem mem_le_jsMaxNat (l : List Nat) (x : Nat) (hx : x ∈ l) : x ≤ jsMaxNat l :=
  le_foldl_max_of_mem l 0 x hx

theorem jsIndexOf_getD (x : Nat) (l : List Nat) (hx : x ∈ l) :
    jsIndexOf x l < l.length ∧ l.getD (jsIndexOf x l) 0 = x ∧
      ∀ j < jsIndexOf x l, l.getD j 0 ≠ x := by
  induction l with
  | nil => cases hx
  | cons y ys ih =>
    rw [jsIndexOf]
    by_cases h : y = x
    · rw [if_pos h]
      exact ⟨Nat.succ_pos ys.length, by simpa using h,
        fun j hj => absurd hj (Nat.not_lt_zero j)⟩
    · rw [if_neg h]
      have hx1 : x ∈ ys := by
        rcases List.mem_cons.mp hx with rfl | h2
        · exact absurd rfl h
        · exact h2
      obtain ⟨h1, h2, h3⟩ := ih hx1
      refine ⟨Nat.succ_lt_succ h1, by simpa using h2, ?_⟩
      intro j hj
      cases j with
      | zero => simpa using h
      | succ j =>
        rw [List.getD_cons_succ]
        exact h3 j (Nat.lt_of_succ_lt_succ hj)

/-- C4: the ranking both `closePoll` and `startFinalPoll` build is sorted
descending by vote count with ties broken by ascending option index, and
the winner computation on a phase-2 close picks the first (lowest) index
attaining the maximum count. -/
theorem claim_C4_deterministic_ranking (options : List String) (counts : List Nat) :
    (rankEntries options counts).Pairwise rankBefore ∧
    (counts ≠ [] →
      jsIndexOf (jsMaxNat counts) counts < counts.length ∧
      counts.getD (jsIndexOf (jsMaxNat counts) counts) 0 = jsMaxNat counts ∧
      (∀ x ∈ counts, x ≤ jsMaxNat counts) ∧
      (∀ j < jsIndexOf (jsMaxNat counts) counts, counts.getD j 0 ≠ jsMaxNat counts)) := by
  constructor
  · rw [rankEntries]
    exact sortRanked_pairwise _ (rankEntries_input_pairwise options counts)
  · intro hne
    obtain ⟨h1, h2, h3⟩ := jsIndexOf_getD (jsMaxNat counts) counts (jsMaxNat_mem counts hne)
    exact ⟨h1, h2, fun x hx => mem_le_jsMaxNat counts x hx, h3⟩

/-- C4 witness: tied counts 5, 5, 2 rank as indices 0, 1, 2 and the winner
index is 0. -/
theorem claim_C4_witness :
    jsIndexOf (jsMaxNat [5, 5, 2]) [5, 5, 2] < 3 ∧
      [5, 5, 2].getD (jsIndexOf (jsMaxNat [5, 5, 2]) [5, 5, 2]) 0 = jsMaxNat [5, 5, 2] :=
  ⟨((claim_C4_deterministic_ranking ["x", "y", "z"] [5, 5, 2]).2 (by decide)).1,
   ((claim_C4_deterministic_ranking ["x", "y", "z"] [5, 5, 2]).2 (by decide)).2.1⟩

/-- The nomination row stored by `/nominatebook`: `"Title by Author"`
built from the trimmed title and author, trimmed once more by
`saveNomination` before the insert. -/
def nomRow (guildId month title author userId : String) : Nomination :=
  { guildId := guildId, month := month,
    bookTitle := jsTrim (jsTrim title ++ " by " ++ jsTrim author),
    nominatedBy := userId }

/-- C8 (amended): `vote` fails with NotFound when the poll is absent and
with Conflict when the poll is inactive, and in both failure cases the
database is unchanged; but the handler performs no bounds check on the
option index: on an active multi-vote poll a fresh vote for any index, in
range or not, is accepted and its row stored. -/
theorem claim_C8_amended_vote_errors (db : DB) (pollId : Nat) (voterId : String)
    (i : Nat) :
    (db.polls.find? (fun p => decide (p.id = pollId)) = none →
      vote db pollId voterId i = .error .notFound ∧
      applyOp db (.voteOp pollId voterId i) = db) ∧
    (∀ poll, db.polls.find? (fun p => decide (p.id = pollId)) = some poll →
      poll.active = false →
      vote db pollId voterId i = .error .conflict ∧
      applyOp db (.voteOp pollId voterId i) = db) ∧
    (∀ poll, db.polls.find? (fun p => decide (p.id = pollId)) = some poll →
      poll.active = true → poll.multiVote = true →
      hasVote db pollId voterId i = false →
      vote db pollId voterId i
        = .ok { db with votes := db.votes ++ [mkVote pollId voterId i] }) := by
  refine ⟨?_, ?_, ?_⟩
  · intro h
    have hv : vote db pollId voterId i = .error .notFound := by
      rw [vote, h]
    refine ⟨hv, ?_⟩
    rw [applyOp, hv]
  · intro poll h hact
    have hv : vote db pollId voterId i = .error .conflict := by
      rw [vote, h]
      dsimp only
      rw [if_pos hact]
    refine ⟨hv, ?_⟩
    rw [applyOp, hv]
  · intro poll h hact hmv hnew
    exact vote_multi_eq_neg db pollId voterId i poll h hact hmv hnew

/-- C8 counterexample: on `multiDB` (an active two-option multi-vote
poll) a vote for option index 5 — out of bounds — is accepted and the
out-of-range row is stored instead of failing with a ValidationError. -/
theorem claim_C8_counterexample :
    pollM.options.length = 2 ∧
      vote multiDB 1 "u1" 5 = .ok { multiDB with votes := [mkVote 1 "u1" 5] } := by
  decide

/-- C8 witness: the NotFound case on the empty database leaves it
unchanged. -/
theorem claim_C8_witness :
    vote emptyDB 7 "u1" 0 = .error .notFound ∧
      applyOp emptyDB (.voteOp 7 "u1" 0) = emptyDB :=
  (claim_C8_amended_vote_errors emptyDB 7 "u1" 0).1 (by decide)

/-- C9 (amended): nomination submission fails with ValidationError exactly
when the title or the author is the empty string (the `!title || !author`
check); a whitespace-only title or author passes the check and a
nomination row is stored. -/
theorem claim_C9_amended_nominate_validation (db : DB)
    (guildId month title author userId : String) :
    ((title = "" ∨ author = "") →
      nominateBook db guildId month title author userId = .error .validationError) ∧
    (title ≠ "" → author ≠ "" →
      nominateBook db guildId month title author userId = .ok { db with
        nominations := db.nominations ++ [nomRow guildId month title author userId] }) := by
  constructor
  · intro h
    rw [nominateBook, if_pos h]
  · intro h1 h2
    rw [nominateBook, if_neg (by tauto)]
    rfl

/-- C9 counterexample: the title `" "` is empty after trimming, yet the
call succeeds and a row is stored (titled `"by Herbert"` after the final
trim), instead of failing with a ValidationError. -/
theorem claim_C9_counterexample :
    jsTrim " " = "" ∧
      nominateBook emptyDB "c" "2026-01" " " "Herbert" "u1" = .ok { emptyDB with
        nominations := [nomRow "c" "2026-01" " " "Herbert" "u1"] } ∧
      (nomRow "c" "2026-01" " " "Herbert" "u1").bookTitle = "by Herbert" := by
  decide

/-- C9 witness: a normal nomination is stored with the formatted title. -/
theorem claim_C9_witness :
    nominateBook emptyDB "c" "2026-01" " Dune " "Herbert" "u1" = .ok { emptyDB with
      nominations := [nomRow "c" "2026-01" " Dune " "Herbert" "u1"] } :=
  (claim_C9_amended_nominate_validation emptyDB "c" "2026-01" " Dune " "Herbert"
    "u1").2 (by decide) (by decide)

/-- C6 (amended): `startPoll`'s Conflict check is scoped to the guild AND
the requested month — an active poll for another month does not block it
(see the counterexample).  With no active poll for the month it fails
with Precondition when fewer than 2 nominations exist for (guild, month),
and otherwise inserts `startPollRow`: options are the stored nomination
titles (each formatted "Title by Author" by `nominateBook`) in submission
order, with multiVote = true, active = true, phase = 1. -/
theorem claim_C6_amended_startPoll (db : DB) (guildId month : String) :
    (0 < (activePollsForMonth db guildId month).length →
      startPoll db guildId month = .error .conflict) ∧
    ((activePollsForMonth db guildId month).length = 0 →
      (nominationsFor db guildId month).length < 2 →
      startPoll db guildId month = .error .precondition) ∧
    ((activePollsForMonth db guildId month).length = 0 →
      2 ≤ (nominationsFor db guildId month).length →
      startPoll db guildId month = .ok { db with
        polls := db.polls ++ [startPollRow db guildId month],
        nextPollId := db.nextPollId + 1 } ∧
      (startPollRow db guildId month).options
        = (nominationsFor db guildId month).map (fun n => n.bookTitle) ∧
      (startPollRow db guildId month).multiVote = true ∧
      (startPollRow db guildId month).active = true ∧
      (startPollRow db guildId month).phase = 1) := by
  refine ⟨?_, ?_, ?_⟩
  · intro h
    rw [startPoll, if_pos h]
  · intro h0 h2
    rw [startPoll, if_neg (by omega), if_pos h2]
  · intro h0 h2
    refine ⟨?_, rfl, rfl, rfl, rfl⟩
    rw [startPoll, if_neg (by omega), if_neg (by omega)]

/-- Nominations for two months and an active phase-1 poll for January,
reached from the empty database by six commands. -/
def crossMonthDB : DB := runOps emptyDB
  [ .nominate "c" "2026-01" "Dune" "Herbert" "u1",
    .nominate "c" "2026-01" "1984" "Orwell" "u2",
    .nominate "c" "2026-02" "Emma" "Austen" "u1",
    .nominate "c" "2026-02" "Dracula" "Stoker" "u2",
    .start "c" "2026-01" ]

/-- C6 counterexample: an active poll already exists for the community,
yet `startPoll` for another month succeeds — the Conflict check filters
by month, not by community alone. -/
theorem claim_C6_counterexample :
    (activePollsFor crossMonthDB "c").length = 1 ∧
      (startPoll crossMonthDB "c" "2026-02").isOk = true := by
  decide

/-- Scenario A of the spec: two nominations for "2026-01". -/
def scnA : DB := runOps emptyDB
  [ .nominate "c" "2026-01" "Dune" "Herbert" "u1",
    .nominate "c" "2026-01" "1984" "Orwell" "u2" ]

/-- C6 witness: Scenario A — `startPoll` succeeds with options
`["Dune by Herbert", "1984 by Orwell"]`. -/
theorem claim_C6_witness :
    startPoll scnA "c" "2026-01" = .ok { scnA with
      polls := [startPollRow scnA "c" "2026-01"], nextPollId := 2 } ∧
    (startPollRow scnA "c" "2026-01").options
      = ["Dune by Herbert", "1984 by Orwell"] :=
  ⟨((claim_C6_amended_startPoll scnA "c" "2026-01").2.2 (by decide) (by decide)).1,
   by decide⟩

/-- C7: `closePoll` fails with NotFound when the community has no active
poll; otherwise it deactivates the (first) active poll's row and appends
a Winner row — for (guildId, poll.month) via `closeWinnerRow` — exactly
when that poll has phase = 2; a phase-1 close never writes a Winner. -/
theorem claim_C7_closePoll (db : DB) (guildId : String) :
    (activePollsFor db guildId = [] →
      closePoll db guildId = .error .notFound) ∧
    (∀ poll rest, activePollsFor db guildId = poll :: rest →
      closePoll db guildId = .ok (closeOkResult db guildId poll) ∧
      (closeOkResult db guildId poll).db.polls
        = db.polls.map (deactivateRow poll.id) ∧
      (poll.phase = 2 → (closeOkResult db guildId poll).db.winners
        = db.winners ++ [closeWinnerRow db guildId poll]) ∧
      (poll.phase ≠ 2 → (closeOkResult db guildId poll).db.winners
        = db.winners)) := by
  constructor
  · intro h
    rw [closePoll, h]
  · intro poll rest h
    refine ⟨by rw [closePoll, h], rfl, ?_, ?_⟩
    · intro hp
      rw [closeOkResult]
      dsimp only
      rw [if_pos hp]
    · intro hp
      rw [closeOkResult]
      dsimp only
      rw [if_neg hp]

/-- C7 witness: closing the phase-1 poll of `multiDB` deactivates it and
writes no winner. -/
theorem claim_C7_witness :
    closePoll multiDB "c" = .ok (closeOkResult multiDB "c" pollM) ∧
      (closeOkResult multiDB "c" pollM).db.winners = multiDB.winners :=
  ⟨((claim_C7_closePoll multiDB "c").2 pollM [] (by decide)).1,
   ((claim_C7_closePoll multiDB "c").2 pollM [] (by decide)).2.2.2 (by decide)⟩

theorem jsMaxNat_replicate_zero (n : Nat) : jsMaxNat (List.replicate n 0) = 0 := by
  induction n with
  | zero => rfl
  | succ n ih =>
    rw [List.replicate_succ, jsMaxNat, List.foldl_cons]
    show List.foldl Nat.max 0 (List.replicate n 0) = 0
    exact ih

/-- C10: closing a phase-2 poll on which no votes exist still records a
winner: every count is 0, `Math.max` yields 0, `indexOf(0)` yields index
0, so the Winner row is the option at index 0 with voteCount 0. -/
theorem claim_C10_zero_vote_winner (db : DB) (guildId : String) (poll : Poll)
    (rest : List Poll) (hact : activePollsFor db guildId = poll :: rest)
    (hphase : poll.phase = 2) (hopts : poll.options ≠ [])
    (hnov : ∀ v ∈ db.votes, v.pollId ≠ poll.id) :
    closePoll db guildId = .ok (closeOkResult db guildId poll) ∧
      (closeOkResult db guildId poll).db.winners = db.winners ++
        [{ guildId := guildId, month := poll.month,
           bookTitle := poll.options.getD 0 "", voteCount := 0 }] := by
  have hcounts : closeCounts db poll = List.replicate poll.options.length 0 := by
    rw [closeCounts, voteCountArray]
    rw [List.eq_replicate_iff]
    constructor
    · rw [List.length_map, List.length_range]
    · intro b hb
      rw [List.mem_map] at hb
      obtain ⟨i, _, rfl⟩ := hb
      rw [countVotes, List.length_eq_zero]
      refine List.filter_eq_nil_iff.mpr ?_
      intro v hv hdec
      exact absurd (of_decide_eq_true hdec).1 (hnov v hv)
  have hwrow : closeWinnerRow db guildId poll
      = { guildId := guildId, month := poll.month,
          bookTitle := poll.options.getD 0 "", voteCount := 0 } := by
    rw [closeWinnerRow, hcounts, jsMaxNat_replicate_zero]
    cases hopt : poll.options with
    | nil => exact absurd hopt hopts
    | cons o os =>
      rw [List.length_cons, List.replicate_succ, jsIndexOf, if_pos rfl]
  constructor
  · rw [closePoll, hact]
  · rw [closeOkResult]
    dsimp only
    rw [if_pos hphase, hwrow]

/-- C10 witness: closing `singleDB` (a phase-2 poll with zero votes)
records option "A" with voteCount 0. -/
theorem claim_C10_witness :
    closePoll singleDB "c" = .ok (closeOkResult singleDB "c" pollS) ∧
      (closeOkResult singleDB "c" pollS).db.winners =
        [{ guildId := "c", month := "2026-01", bookTitle := "A", voteCount := 0 }] :=
  claim_C10_zero_vote_winner singleDB "c" pollS [] (by decide) (by decide)
    (by decide) (by decide)

/-- At most one active poll per (community, month) pair. -/
def atMostOneActivePerMonth (db : DB) : Prop :=
  ∀ guildId month : String, (activePollsForMonth db guildId month).length ≤ 1

theorem activePollsForMonth_congr (db1 db2 : DB) (g m : String)
    (h : db1.polls = db2.polls) :
    activePollsForMonth db1 g m = activePollsForMonth db2 g m := by
  rw [activePollsForMonth, activePollsForMonth, h]

theorem vote_ok_polls (db : DB) (pollId : Nat) (voterId : String) (i : Nat)
    (db1 : DB) (h : vote db pollId voterId i = .ok db1) : db1.polls = db.polls := by
  rw [vote] at h
  split at h
  · cases h
  · split at h
    · cases h
    · split at h
      · dsimp only at h
        split at h
        · cases h
          rfl
        · cases h
          rfl
      · dsimp only at h
        cases h
        rfl

theorem startPoll_ok_shape (db : DB) (g m : String) (db1 : DB)
    (h : startPoll db g m = .ok db1) :
    activePollsForMonth db g m = [] ∧
      db1.polls = db.polls ++ [startPollRow db g m] := by
  rw [startPoll] at h
  split at h
  · cases h
  · split at h
    · cases h
    · rename_i hc _
      cases h
      refine ⟨List.length_eq_zero.mp (by omega), rfl⟩

theorem startFinalPoll_ok_shape (db : DB) (g : String) (db1 : DB)
    (h : startFinalPoll db g = .ok db1) :
    activePollsFor db g = [] ∧
      ∃ p1, db1.polls = db.polls ++ [finalPollRow db g p1] ∧
        (finalPollRow db g p1).guildId = g := by
  rw [startFinalPoll] at h
  split at h
  · cases h
  · rename_i p1 _
    split at h
    · cases h
    · rename_i hc
      split at h
      · cases h
      · split at h
        · cases h
        · cases h
          exact ⟨List.length_eq_zero.mp (by omega), p1, rfl, rfl⟩

theorem closePoll_ok_polls (db : DB) (g : String) (r : CloseResult)
    (h : closePoll db g = .ok r) :
    ∃ pid, r.db.polls = db.polls.map (deactivateRow pid) := by
  rw [closePoll] at h
  split at h
  · cases h
  · rename_i poll rest _
    cases h
    exact ⟨poll.id, rfl⟩

theorem deactivate_mono (pid : Nat) (g m : String) (x : Poll)
    (h : decide ((deactivateRow pid x).guildId = g ∧ (deactivateRow pid x).month = m ∧
      (deactivateRow pid x).active = true) = true) :
    decide (x.guildId = g ∧ x.month = m ∧ x.active = true) = true := by
  rw [deactivateRow] at h
  by_cases hid : x.id = pid
  · rw [if_pos hid] at h
    have h2 := of_decide_eq_true h
    exact absurd h2.2.2 (by simp)
  · rw [if_neg hid] at h
    exact h

theorem length_filter_deactivate_le (l : List Poll) (pid : Nat) (p : Poll → Bool)
    (hmono : ∀ x, p (deactivateRow pid x) = true → p x = true) :
    ((l.map (deactivateRow pid)).filter p).length ≤ (l.filter p).length := by
  induction l with
  | nil => exact Nat.le_refl 0
  | cons a as ih =>
    rw [List.map_cons, List.filter_cons, List.filter_cons]
    by_cases hfa : p (deactivateRow pid a) = true
    · rw [if_pos hfa, if_pos (hmono a hfa), List.length_cons, List.length_cons]
      exact Nat.succ_le_succ ih
    · rw [if_neg hfa]
      by_cases hpa : p a = true
      · rw [if_pos hpa, List.length_cons]
        exact Nat.le_trans ih (Nat.le_succ _)
      · rw [if_neg hpa]
        exact ih

theorem activeMonth_le_active (db : DB) (g m : String) :
    (activePollsForMonth db g m).length ≤ (activePollsFor db g).length := by
  rw [activePollsForMonth, activePollsFor,
    ← List.countP_eq_length_filter, ← List.countP_eq_length_filter]
  apply List.countP_mono_left
  intro x _ hx
  have h2 := of_decide_eq_true hx
  exact decide_eq_true ⟨h2.1, h2.2.2⟩

theorem length_filter_singleton_le (p : Poll → Bool) (x : Poll) :
    ([x].filter p).length ≤ 1 :=
  List.length_filter_le p [x]

theorem filter_new_row_nil (g2 m2 : String) (row : Poll)
    (hne : ¬(row.guildId = g2 ∧ row.month = m2)) :
    ([row].filter
      (fun p => decide (p.guildId = g2 ∧ p.month = m2 ∧ p.active = true))) = [] := by
  refine List.filter_eq_nil_iff.mpr ?_
  intro x hx
  rw [List.mem_singleton] at hx
  subst hx
  intro hdec
  have h2 := of_decide_eq_true hdec
  exact hne ⟨h2.1, h2.2.1⟩

/-- C1 (amended): per (community, month) at most one poll is ever active:
the invariant is preserved by every command.  `startPoll`'s Conflict check
covers only its own month, so the stronger claimed invariant — at most one
active poll per community across months — fails (see the counterexample);
`startFinalPoll` checks the whole community, and `closePoll` only
deactivates rows. -/
theorem claim_C1_amended_invariant (db : DB) (op : Op)
    (h : atMostOneActivePerMonth db) : atMostOneActivePerMonth (applyOp db op) := by
  cases op with
  | nominate g m t a u =>
    intro g2 m2
    have hp : (applyOp db (Op.nominate g m t a u)).polls = db.polls := by
      rw [applyOp]
      cases hres : nominateBook db g m t a u with
      | error e => rfl
      | ok db1 =>
        show db1.polls = db.polls
        rw [nominateBook] at hres
        split at hres
        · cases hres
        · cases hres
          rfl
    rw [activePollsForMonth_congr _ db g2 m2 hp]
    exact h g2 m2
  | clear g m =>
    intro g2 m2
    have hp : (applyOp db (Op.clear g m)).polls = db.polls := rfl
    rw [activePollsForMonth_congr _ db g2 m2 hp]
    exact h g2 m2
  | voteOp pollId voterId i =>
    intro g2 m2
    have hp : (applyOp db (Op.voteOp pollId voterId i)).polls = db.polls := by
      rw [applyOp]
      cases hres : vote db pollId voterId i with
      | error e => rfl
      | ok db1 =>
        show db1.polls = db.polls
        exact vote_ok_polls db pollId voterId i db1 hres
    rw [activePollsForMonth_congr _ db g2 m2 hp]
    exact h g2 m2
  | close g =>
    intro g2 m2
    rw [applyOp]
    cases hres : closePoll db g with
    | error e => exact h g2 m2
    | ok r =>
      obtain ⟨pid, hpolls⟩ := closePoll_ok_polls db g r hres
      show (activePollsForMonth r.db g2 m2).length ≤ 1
      rw [activePollsForMonth, hpolls]
      exact Nat.le_trans
        (length_filter_deactivate_le db.polls pid _ (deactivate_mono pid g2 m2))
        (h g2 m2)
  | start g m =>
    intro g2 m2
    rw [applyOp]
    cases hres : startPoll db g m with
    | error e => exact h g2 m2
    | ok db1 =>
      obtain ⟨hempty, hpolls⟩ := startPoll_ok_shape db g m db1 hres
      show (activePollsForMonth db1 g2 m2).length ≤ 1
      rw [activePollsForMonth, hpolls, List.filter_append, List.length_append]
      by_cases hgm : (startPollRow db g m).guildId = g2 ∧ (startPollRow db g m).month = m2
      · obtain ⟨hg, hm⟩ := hgm
        have hg2 : g2 = g := hg.symm
        have hm2 : m2 = m := hm.symm
        subst hg2
        subst hm2
        rw [activePollsForMonth] at hempty
        rw [hempty]
        simpa using length_filter_singleton_le _ (startPollRow db g2 m2)
      · rw [filter_new_row_nil g2 m2 (startPollRow db g m) hgm]
        simp only [List.length_nil, Nat.add_zero]
        exact h g2 m2
  | startFinal g =>
    intro g2 m2
    rw [applyOp]
    cases hres : startFinalPoll db g with
    | error e => exact h g2 m2
    | ok db1 =>
      obtain ⟨hempty, p1, hpolls, hguild⟩ := startFinalPoll_ok_shape db g db1 hres
      show (activePollsForMonth db1 g2 m2).length ≤ 1
      rw [activePollsForMonth, hpolls, List.filter_append, List.length_append]
      by_cases hgm : (finalPollRow db g p1).guildId = g2 ∧ (finalPollRow db g p1).month = m2
      · have hg2 : g2 = g := by
          rw [← hgm.1, hguild]
        subst hg2
        have hmonth0 : (activePollsForMonth db g2 m2).length = 0 := by
          have hle := activeMonth_le_active db g2 m2
          rw [hempty] at hle
          simpa using hle
        rw [activePollsForMonth] at hmonth0
        rw [hmonth0]
        simpa using length_filter_singleton_le _ (finalPollRow db g2 p1)
      · rw [filter_new_row_nil g2 m2 (finalPollRow db g p1) hgm]
        simp only [List.length_nil, Nat.add_zero]
        exact h g2 m2

/-- C1 counterexample: from the empty database a concrete command
sequence reaches two simultaneously active polls for community "c":
`startPoll` for February succeeds although the January poll is still
active, because its Conflict check filters by month. -/
theorem claim_C1_counterexample :
    (activePollsFor crossMonthDB "c").length = 1 ∧
      (startPoll crossMonthDB "c" "2026-02").isOk = true ∧
      (activePollsFor (runOps crossMonthDB [Op.start "c" "2026-02"]) "c").length = 2 := by
  decide

/-- C1 witness: applying the February `startPoll` to `crossMonthDB`
preserves the per-month invariant. -/
theorem claim_C1_witness :
    atMostOneActivePerMonth (applyOp crossMonthDB (Op.start "c" "2026-02")) :=
  claim_C1_amended_invariant crossMonthDB (Op.start "c" "2026-02")
    (by
      intro g m
      exact Nat.le_trans
        (List.length_filter_le _ crossMonthDB.polls) (by decide))

/-- The number of options that received at least one vote. -/
def positiveCount (counts : List Nat) : Nat :=
  (counts.filter (fun c => decide (0 < c))).length

theorem map_getD_range (c : List Nat) :
    (List.range c.length).map (fun i => c.getD i 0) = c := by
  induction c with
  | nil => rfl
  | cons x xs ih =>
    rw [List.length_cons, List.range_succ_eq_map, List.map_cons, List.map_map,
      List.getD_cons_zero]
    have h2 : (List.range xs.length).map ((fun i => (x :: xs).getD i 0) ∘ Nat.succ)
        = (List.range xs.length).map (fun i => xs.getD i 0) := by
      apply List.map_congr_left
      intro i _
      rfl
    rw [h2, ih]

theorem countP_take_of_sorted (S : List RankEntry) (n : Nat)
    (hsort : S.Pairwise (fun a b => b.votes ≤ a.votes))
    (hn : n ≤ List.countP (fun o => decide (0 < o.votes)) S) :
    List.countP (fun o => decide (0 < o.votes)) (S.take n) = n := by
  induction S generalizing n with
  | nil =>
    rw [List.countP_nil] at hn
    rw [List.take_nil, List.countP_nil]
    omega
  | cons x xs ih =>
    cases n with
    | zero => rfl
    | succ n =>
      obtain ⟨hx, hxs⟩ := List.pairwise_cons.mp hsort
      by_cases hpx : (decide (0 < x.votes)) = true
      · rw [List.countP_cons, hpx, if_pos rfl] at hn
        have hn2 : n ≤ List.countP (fun o => decide (0 < o.votes)) xs := by omega
        rw [List.take_succ_cons, List.countP_cons, hpx, if_pos rfl, ih n hxs hn2]
      · have hx0 : x.votes = 0 := by
          rcases Nat.eq_zero_or_pos x.votes with h0 | hpos
          · exact h0
          · exact absurd (decide_eq_true hpos) hpx
        have hzero : List.countP (fun o => decide (0 < o.votes)) xs = 0 := by
          rw [List.countP_eq_zero]
          intro a ha
          have hav : a.votes ≤ x.votes := hx a ha
          rw [hx0] at hav
          have ha0 : a.votes = 0 := Nat.le_zero.mp hav
          simp [ha0]
        rw [Bool.not_eq_true] at hpx
        rw [List.countP_cons, hzero, hpx] at hn
        simp at hn

theorem rankEntries_countP_positive (options : List String) (counts : List Nat)
    (hlen : counts.length = options.length) :
    List.countP (fun o => decide (0 < o.votes)) (rankEntries options counts)
      = positiveCount counts := by
  rw [rankEntries, (sortRanked_perm _).countP_eq, List.countP_map]
  rw [positiveCount, ← List.countP_eq_length_filter]
  conv_rhs => rw [← map_getD_range counts]
  rw [List.countP_map, hlen]
  apply List.countP_congr
  intro i _
  exact Iff.rfl

theorem rankEntries_length (options : List String) (counts : List Nat) :
    (rankEntries options counts).length = options.length := by
  rw [rankEntries, (sortRanked_perm _).length_eq, List.length_map, List.length_range]

theorem rankEntries_sorted_votes (options : List String) (counts : List Nat) :
    (rankEntries options counts).Pairwise (fun a b => b.votes ≤ a.votes) := by
  refine (sortRanked_pairwise _ (rankEntries_input_pairwise options counts)).imp ?_
  intro a b hab
  rcases hab with hlt | ⟨heq, _⟩
  · exact Nat.le_of_lt hlt
  · exact Nat.le_of_eq heq.symm

theorem booksWithVotes_iff (db : DB) (p1 : Poll) :
    (((top3 db p1).filter (fun o => decide (0 < o.votes))).length < 3
      ↔ positiveCount (voteCountArray db p1.id p1.options) < 3) := by
  have hclen : (voteCountArray db p1.id p1.options).length = p1.options.length := by
    rw [voteCountArray, List.length_map, List.length_range]
  have hcount := rankEntries_countP_positive p1.options
    (voteCountArray db p1.id p1.options) hclen
  have hsorted := rankEntries_sorted_votes p1.options
    (voteCountArray db p1.id p1.options)
  rw [top3, ← List.countP_eq_length_filter]
  constructor
  · intro hcode
    by_contra hpos
    rw [Nat.not_lt] at hpos
    rw [← hcount] at hpos
    have h3 := countP_take_of_sorted _ 3 hsorted hpos
    omega
  · intro hpos
    have hle := List.Sublist.countP_le (fun o => decide (0 < o.votes))
      (List.take_sublist 3 (rankEntries p1.options (voteCountArray db p1.id p1.options)))
    omega

/-- C5: `startFinalPoll` fails with Precondition when no closed phase-1
poll exists for the community; with a closed phase-1 poll present it fails
with Conflict when any poll is active for the community; then fails with
Precondition when the phase-1 poll had fewer than 3 options (regardless of
votes), or when fewer than 3 options received at least one vote; and on
success inserts `finalPollRow`: the top-3 phase-1 titles in ranked order,
multiVote = false, active = true, phase = 2, parentPollId the phase-1
poll's id. -/
theorem claim_C5_startFinalPoll (db : DB) (guildId : String) :
    (maxByIdPoll (closedPhase1 db guildId) = none →
      startFinalPoll db guildId = .error .precondition) ∧
    (∀ p1, maxByIdPoll (closedPhase1 db guildId) = some p1 →
      (activePollsFor db guildId ≠ [] →
        startFinalPoll db guildId = .error .conflict) ∧
      (activePollsFor db guildId = [] →
        (p1.options.length < 3 →
          startFinalPoll db guildId = .error .precondition) ∧
        (3 ≤ p1.options.length →
          (positiveCount (voteCountArray db p1.id p1.options) < 3 →
            startFinalPoll db guildId = .error .precondition) ∧
          (3 ≤ positiveCount (voteCountArray db p1.id p1.options) →
            startFinalPoll db guildId = .ok { db with
              polls := db.polls ++ [finalPollRow db guildId p1],
              nextPollId := db.nextPollId + 1 } ∧
            (finalPollRow db guildId p1).options
              = (top3 db p1).map (fun o => o.title) ∧
            (finalPollRow db guildId p1).multiVote = false ∧
            (finalPollRow db guildId p1).active = true ∧
            (finalPollRow db guildId p1).phase = 2 ∧
            (finalPollRow db guildId p1).parentPollId = some p1.id)))) := by
  constructor
  · intro hnone
    rw [startFinalPoll, hnone]
  · intro p1 hsome
    constructor
    · intro hne
      rw [startFinalPoll, hsome]
      dsimp only
      rw [if_pos (List.length_pos.mpr hne)]
    · intro hnil
      have hnoact : ¬ 0 < (activePollsFor db guildId).length := by
        rw [hnil]
        simp
      constructor
      · intro hlt
        rw [startFinalPoll, hsome]
        dsimp only
        rw [if_neg hnoact, if_pos hlt]
      · intro hge
        constructor
        · intro hposlt
          rw [startFinalPoll, hsome]
          dsimp only
          rw [if_neg hnoact, if_neg (by omega),
            if_pos ((booksWithVotes_iff db p1).mpr hposlt)]
        · intro hposge
          have hcode : ¬ ((top3 db p1).filter
              (fun o => decide (0 < o.votes))).length < 3 := by
            rw [booksWithVotes_iff db p1]
            omega
          refine ⟨?_, rfl, rfl, rfl, rfl, rfl⟩
          rw [startFinalPoll, hsome]
          dsimp only
          rw [if_neg hnoact, if_neg (by omega), if_neg hcode]

/-- Scenario C of the spec: three nominations, a phase-1 poll with vote
counts {0 ↦ 1, 1 ↦ 3, 2 ↦ 2}, closed. -/
def scnC : DB := runOps emptyDB
  [ .nominate "c" "2026-01" "B0" "A0" "u1",
    .nominate "c" "2026-01" "B1" "A1" "u2",
    .nominate "c" "2026-01" "B2" "A2" "u3",
    .start "c" "2026-01",
    .voteOp 1 "v1" 0,
    .voteOp 1 "v1" 1, .voteOp 1 "v2" 1, .voteOp 1 "v3" 1,
    .voteOp 1 "v1" 2, .voteOp 1 "v2" 2,
    .close "c" ]

/-- The closed phase-1 poll of `scnC`. -/
def p1C : Poll :=
  { id := 1, guildId := "c", month := "2026-01",
    options := ["B0 by A0", "B1 by A1", "B2 by A2"], active := false, phase := 1,
    multiVote := true, parentPollId := none }

/-- C5 witness: Scenario C — the final poll is created with the top-3
titles in ranked order and parentPollId 1. -/
theorem claim_C5_witness :
    startFinalPoll scnC "c" = .ok { scnC with
      polls := scnC.polls ++ [finalPollRow scnC "c" p1C],
      nextPollId := scnC.nextPollId + 1 } ∧
    (finalPollRow scnC "c" p1C).options = ["B1 by A1", "B2 by A2", "B0 by A0"] ∧
    (finalPollRow scnC "c" p1C).parentPollId = some 1 :=
  ⟨(((((claim_C5_startFinalPoll scnC "c").2 p1C (by decide)).2
      (by decide)).2 (by decide)).2 (by decide)).1,
   by decide, by decide⟩

end Bramble
